import Mathlib

set_option maxHeartbeats 1000000

/-! Verification of the query-compilation core of asyncy-psql (src/app.py).

The embedding translates the pure query-building parts of the source:
the recursive filter compiler (class QueryBuilder), the multi-row insert
compiler (class InsertBuilder), the identifier validator
(check_valid_sql_ident), and the pure SQL-assembly fragments of the
delete / select / update request handlers.  Python dictionaries are
modelled as insertion-ordered association lists (the mutual inductive
JFields, so that the filter compiler is structurally recursive), Python
raising (assertion failures, AttributeError on a missing .items method,
KeyError, TypeError) as an Except error value, and the two mutable
instance fields of QueryBuilder (params, current_column) as an
explicitly threaded state record. -/

mutual
/-- A JSON-like value as produced by parsing a request body: scalars
(string, number, boolean, null), insertion-ordered objects and arrays. -/
inductive JVal where
  | str (s : String)
  | int (n : Int)
  | bool (b : Bool)
  | null
  | obj (kvs : JFields)
  | arr (xs : JItems)

/-- The fields of a JSON object, in insertion order: the order Python
dict iteration visits them. -/
inductive JFields where
  | nil
  | cons (k : String) (v : JVal) (rest : JFields)

/-- The elements of a JSON array, in order. -/
inductive JItems where
  | nil
  | cons (v : JVal) (rest : JItems)
end

/-- The number of fields of an object: Python len() on a dict. -/
def JFields.length : JFields → Nat
  | .nil => 0
  | .cons _ _ rest => rest.length + 1

/-- The number of elements of an array: Python len() on a list. -/
def JItems.length : JItems → Nat
  | .nil => 0
  | .cons _ rest => rest.length + 1

/-- The field list of an object as a list of pairs: the Python
expression list(values.items()). -/
def JFields.toList : JFields → List (String × JVal)
  | .nil => []
  | .cons k v rest => (k, v) :: rest.toList

/-- Embedding of the Python expression sep.join(parts). -/
def joinSep (sep : String) : List String → String
  | [] => ""
  | [x] => x
  | x :: y :: rest => x ++ sep ++ joinSep sep (y :: rest)

/-- Left-to-right scanner counting the non-overlapping occurrences of
the placeholder marker percent-s in a character list; the flag records
whether the previous character was a percent sign still able to open a
placeholder. -/
def countPSAux : Bool → List Char → Nat
  | _, [] => 0
  | pending, c :: rest =>
    if pending && (c == 's') then countPSAux false rest + 1
    else countPSAux (c == '%') rest

/-- Number of percent-s placeholders in a SQL text fragment. -/
def countPS (s : String) : Nat := countPSAux false s.data

/-- Whether the last character of the list is a percent sign; on the
empty list it returns the incoming flag. -/
def lastIsPct : Bool → List Char → Bool
  | p, [] => p
  | _, c :: rest => lastIsPct (c == '%') rest

/-- The operator table QueryBuilder.operators of src/app.py. -/
def operators : List (String × String) :=
  [("$gt", ">"), ("$gte", ">="), ("$lt", "<"), ("$lte", "<="), ("$eq", "=")]

/-- Dictionary access QueryBuilder.operators[k], as an Option. -/
def opLookup (k : String) : Option String := operators.lookup k

/-- The two mutable instance fields of a QueryBuilder object. -/
structure QBState where
  params : List JVal
  current_column : Option String

/-- The ways the Python filter compiler can raise: the two assert
statements in op and build, a KeyError on the operator table, an
AttributeError from calling .items() on a non-dictionary, and a
TypeError from len() on a value with no length. -/
inductive QErr where
  | assertNoColumn
  | assertNested (col : String)
  | keyErr
  | attrErr
  | typeErr
deriving DecidableEq

/-- Embedding of QueryBuilder.op: asserts that a column context is
active, appends the value to params, looks the operator up in the
table and emits the quoted comparison fragment. -/
def QueryBuilder.op (st : QBState) (k : String) (v : JVal) :
    Except QErr (String × QBState) :=
  match st.current_column with
  | none => .error .assertNoColumn
  | some col =>
    let st1 : QBState := { st with params := st.params ++ [v] }
    match opLookup k with
    | none => .error .keyErr
    | some sym => .ok ("\"" ++ col ++ "\" " ++ sym ++ " %s", st1)

/-- Embedding of QueryBuilder.build, iterating over the fields of the
filter object in insertion order.  The method group (which calls build
on the value of the key and joins the fragments) is inlined at the
three recursive call sites so that the recursion is structural; the
standalone QueryBuilder.group below is the method itself and agrees
with the inlined form definitionally.  A value of a logical key that
is not an object makes .items() raise an AttributeError. -/
def QueryBuilder.build : JFields → QBState →
    Except QErr (List String × QBState)
  | .nil, st => .ok ([], st)
  | .cons k v rest, st =>
    if k = "$and" then
      match v with
      | .obj nkvs =>
        match QueryBuilder.build nkvs st with
        | .error e => .error e
        | .ok (frags, st1) =>
          match QueryBuilder.build rest st1 with
          | .error e => .error e
          | .ok (qs, st2) => .ok (joinSep " AND " frags :: qs, st2)
      | _ => .error .attrErr
    else if k = "$or" then
      match v with
      | .obj nkvs =>
        match QueryBuilder.build nkvs st with
        | .error e => .error e
        | .ok (frags, st1) =>
          match QueryBuilder.build rest st1 with
          | .error e => .error e
          | .ok (qs, st2) => .ok (joinSep " OR " frags :: qs, st2)
      | _ => .error .attrErr
    else if (opLookup k).isSome then
      match QueryBuilder.op st k v with
      | .error e => .error e
      | .ok (f, st1) =>
        match QueryBuilder.build rest st1 with
        | .error e => .error e
        | .ok (qs, st2) => .ok (f :: qs, st2)
    else
      match v with
      | .obj nkvs =>
        match st.current_column with
        | some c => .error (.assertNested c)
        | none =>
          match QueryBuilder.build nkvs { st with current_column := some k } with
          | .error e => .error e
          | .ok (frags, st1) =>
            match QueryBuilder.build rest { st1 with current_column := st.current_column } with
            | .error e => .error e
            | .ok (qs, st2) => .ok (joinSep " AND " frags :: qs, st2)
      | _ =>
        match QueryBuilder.build rest { st with params := st.params ++ [v] } with
        | .error e => .error e
        | .ok (qs, st2) => .ok ((k ++ "=%s") :: qs, st2)

/-- Embedding of QueryBuilder.group: builds the value of the key and
joins the resulting fragments with the action word between spaces. -/
def QueryBuilder.group (v : JVal) (action : String) (st : QBState) :
    Except QErr (String × QBState) :=
  match v with
  | .obj kvs =>
    match QueryBuilder.build kvs st with
    | .error e => .error e
    | .ok (frags, st1) => .ok (joinSep (" " ++ action ++ " ") frags, st1)
  | _ => .error .attrErr

/-- The dictionary returned by QueryBuilder.build_query. -/
structure QueryResult where
  query : String
  params : List JVal

/-- Python len() on a JSON value: defined on objects, arrays and
strings, a TypeError otherwise. -/
def pyLen : JVal → Except QErr Nat
  | .obj kvs => .ok kvs.length
  | .arr xs => .ok xs.length
  | .str s => .ok s.length
  | _ => .error .typeErr

/-- Embedding of the static method QueryBuilder.build_query. -/
def QueryBuilder.build_query : Option JVal → Except QErr QueryResult
  | none => .ok { query := "", params := [] }
  | some w =>
    match pyLen w with
    | .error e => .error e
    | .ok 0 => .ok { query := "", params := [] }
    | .ok (Nat.succ _) =>
      match QueryBuilder.group w "AND" { params := [], current_column := none } with
      | .error e => .error e
      | .ok (q, st) => .ok { query := q, params := st.params }

/-- Stable insertion of a pair into a key-sorted list: the new element
goes before the first element whose key is greater or equal, keeping
elements with smaller keys in place. -/
def insertByKey (x : String × JVal) : List (String × JVal) → List (String × JVal)
  | [] => [x]
  | y :: ys => if x.1 ≤ y.1 then x :: y :: ys else y :: insertByKey x ys

/-- Embedding of the Python expression sorted(values.items()): a stable
sort of the item list by key.  Python compares the (key, value) tuples
lexicographically, but the items of a dictionary have pairwise
distinct keys, so the comparison never reaches the values and a stable
sort by key alone coincides with it. -/
def sortByKey : List (String × JVal) → List (String × JVal)
  | [] => []
  | x :: rest => insertByKey x (sortByKey rest)

/-- The three instance fields of an InsertBuilder object. -/
structure InsertBuilder where
  params : List JVal
  value_strs : List String
  first_item : Option (List (String × JVal))

/-- A freshly constructed InsertBuilder (the constructor of the class). -/
def InsertBuilder.new : InsertBuilder :=
  { params := [], value_strs := [], first_item := none }

/-- Embedding of InsertBuilder.add: sorts the items of the row object,
saves them as first_item if no row was added yet, extends params with
the sorted values and appends one parenthesized placeholder tuple with
one placeholder per key of the row. -/
def InsertBuilder.add (b : InsertBuilder) (values : JFields) : InsertBuilder :=
  let items := sortByKey values.toList
  { params := b.params ++ items.map (fun x => x.2),
    value_strs := b.value_strs ++
      ["(" ++ joinSep "," (values.toList.map (fun _ => "%s")) ++ ")"],
    first_item := match b.first_item with
      | none => some items
      | some i => some i }

/-- Embedding of InsertBuilder.names: the quoted keys of the first
added row, comma-joined.  Calling it before any row was added maps
over None and raises in Python, hence the Option. -/
def InsertBuilder.names (b : InsertBuilder) : Option String :=
  b.first_item.map (fun items =>
    joinSep "," (items.map (fun x => "\"" ++ x.1 ++ "\"")))

/-- Embedding of InsertBuilder.values. -/
def InsertBuilder.values (b : InsertBuilder) : String :=
  joinSep "," b.value_strs

/-- The loop of the insert request handler: add every row of the list
to a fresh builder (a single row object is first wrapped into a
one-element list by the handler). -/
def InsertBuilder.addAll (rows : List JFields) : InsertBuilder :=
  rows.foldl InsertBuilder.add InsertBuilder.new

/-- The pure SQL-assembly part of the delete request handler: the
where_str is only prefixed when the compiled parameter list is
non-empty. -/
def deleteSql (table : String) (w : Option JVal) :
    Except QErr (String × List JVal) :=
  match QueryBuilder.build_query w with
  | .error e => .error e
  | .ok q =>
    let where_str := if q.params.length > 0 then "WHERE (" ++ q.query ++ ") " else ""
    .ok ("DELETE FROM " ++ table ++ " " ++ where_str ++ " RETURNING *", q.params)

/-- The pure SQL-assembly part of the select request handler, taking
the already-rendered column selector string: the WHERE clause is only
appended when the compiled parameter list is non-empty. -/
def selectSql (columns table : String) (w : Option JVal) :
    Except QErr (String × List JVal) :=
  match QueryBuilder.build_query w with
  | .error e => .error e
  | .ok q =>
    let sql := "SELECT " ++ columns ++ " FROM " ++ table
    .ok (if q.params.length > 0 then sql ++ " WHERE (" ++ q.query ++ ")" else sql,
      q.params)

/-- The SET clause of the update request handler: sorted assignments
with quoted column names. -/
def updateSetStr (values : JFields) : String :=
  joinSep "," ((sortByKey values.toList).map (fun x => "\"" ++ x.1 ++ "\" = %s"))

/-- The update parameters taken from the sorted assignment values. -/
def updateSetParams (values : JFields) : List JVal :=
  (sortByKey values.toList).map (fun x => x.2)

/-- The pure SQL-assembly part of the update request handler: the
where_str is only inserted when the compiled query string is
non-empty. -/
def updateSql (table : String) (values : JFields) (w : Option JVal) :
    Except QErr (String × List JVal) :=
  match QueryBuilder.build_query w with
  | .error e => .error e
  | .ok q =>
    let where_str := if q.query.length > 0 then "WHERE (" ++ q.query ++ ") " else ""
    .ok ("UPDATE " ++ table ++ " SET " ++ updateSetStr values ++ " " ++ where_str ++
      "RETURNING *", updateSetParams values ++ q.params)

/-- Python str.isalnum on a single character.  CPython consults the
Unicode database, accepting every Unicode letter and numeric
character; this embedding reproduces that decision exactly on the code
points up to U+00FF: the ASCII alphanumerics together with the Latin-1
letters and numeric characters (feminine and masculine ordinal
indicators, micro sign, superscripts, vulgar fractions, and the letter
range U+00C0 to U+00FF without the multiplication and division
signs). -/
def pyCharIsAlnum (c : Char) : Bool :=
  c.isAlphanum ||
    (c.toNat == 0xAA || c.toNat == 0xB2 || c.toNat == 0xB3 || c.toNat == 0xB5 ||
     c.toNat == 0xB9 || c.toNat == 0xBA || c.toNat == 0xBC || c.toNat == 0xBD ||
     c.toNat == 0xBE ||
     (0xC0 ≤ c.toNat && c.toNat ≤ 0xFF && c.toNat != 0xD7 && c.toNat != 0xF7))

/-- Embedding of check_valid_sql_ident: False on every non-string and
on the empty string, False when the first character is not
alphanumeric, False when some character is neither alphanumeric nor
underscore nor dollar, True otherwise.  The function is total and
returns a boolean on every input; it never raises. -/
def check_valid_sql_ident : JVal → Bool
  | .str s =>
    match s.data with
    | [] => false
    | c :: _ =>
      pyCharIsAlnum c &&
        s.data.all (fun ch => pyCharIsAlnum ch || ch == '_' || ch == '$')
  | _ => false

/-- All dictionary keys reachable by the filter compiler contain no
percent-s placeholder marker: the keys of the object itself and,
recursively, the keys of every object-valued entry.  Arrays and
scalars are never traversed by the compiler. -/
def cleanKvs : JFields → Bool
  | .nil => true
  | .cons k (.obj nkvs) rest => (countPS k == 0) && cleanKvs nkvs && cleanKvs rest
  | .cons k _ rest => (countPS k == 0) && cleanKvs rest

/-- Top-level cleanliness of a filter value: object filters must have
clean keys throughout; non-object filters are never traversed. -/
def cleanV : JVal → Bool
  | .obj kvs => cleanKvs kvs
  | _ => true

/-- Cleanliness of an optional current column: it contains no
placeholder marker. -/
def cleanCC : Option String → Bool
  | none => true
  | some c => countPS c == 0

/-- The two assert statements of the filter compiler do not fire while
compiling these fields, given whether a column context is active on
entry: every comparison-operator key needs an active context and every
object-valued ordinary key needs an inactive one. -/
def assertFree : Bool → JFields → Bool
  | _, .nil => true
  | cc, .cons k v rest =>
    if k = "$and" || k = "$or" then
      (match v with
        | .obj nkvs => assertFree cc nkvs
        | _ => true) && assertFree cc rest
    else if (opLookup k).isSome then
      cc && assertFree cc rest
    else
      match v with
      | .obj nkvs => !cc && assertFree true nkvs && assertFree cc rest
      | _ => assertFree cc rest

theorem lastIsPct_append (a b : List Char) (p : Bool) :
    lastIsPct p (a ++ b) = lastIsPct (lastIsPct p a) b := by
  induction a generalizing p with
  | nil => simp [lastIsPct]
  | cons c t ih => simp [lastIsPct, ih]

theorem lastIsPct_pending (p q : Bool) (c : Char) (t : List Char) :
    lastIsPct p (c :: t) = lastIsPct q (c :: t) := by
  simp [lastIsPct]

theorem countPSAux_append (a b : List Char) (p : Bool) :
    countPSAux p (a ++ b) = countPSAux p a + countPSAux (lastIsPct p a) b := by
  induction a generalizing p with
  | nil => simp [countPSAux, lastIsPct]
  | cons c t ih =>
    by_cases h : (p && (c == 's')) = true
    · simp only [Bool.and_eq_true, beq_iff_eq] at h
      obtain ⟨hp, hc⟩ := h
      subst hp; subst hc
      simp [countPSAux, lastIsPct, ih]
      omega
    · simp [countPSAux, lastIsPct, h, ih]

theorem countPS_append (a b : String) (p : Bool) :
    countPSAux p (a ++ b).data =
      countPSAux p a.data + countPSAux (lastIsPct p a.data) b.data := by
  rw [String.data_append, countPSAux_append]

theorem countPSAux_cons (p : Bool) (c : Char) (t : List Char) (hs : c ≠ 's') :
    countPSAux p (c :: t) = countPSAux (c == '%') t := by
  simp [countPSAux, hs]

theorem countPS_joinSep (sep : String)
    (hsep : ∀ p, countPSAux p sep.data = 0)
    (hsepL : ∀ p, lastIsPct p sep.data = false) :
    ∀ frags : List String, (∀ f ∈ frags, lastIsPct false f.data = false) →
      countPS (joinSep sep frags) = (frags.map countPS).sum := by
  intro frags
  induction frags with
  | nil => intro _; rfl
  | cons x xs ih =>
    intro hf
    cases xs with
    | nil => simp [joinSep]
    | cons y ys =>
      have hx : lastIsPct false x.data = false := hf x (by simp)
      have hys : ∀ f ∈ y :: ys, lastIsPct false f.data = false := by
        intro f hmem; exact hf f (by simp [hmem])
      show countPS ((x ++ sep) ++ joinSep sep (y :: ys)) = _
      rw [countPS, countPS_append, String.data_append, countPSAux_append,
        lastIsPct_append, hx, hsep, hsepL]
      have h1 : countPSAux false x.data = countPS x := rfl
      have h2 : countPSAux false (joinSep sep (y :: ys)).data =
          countPS (joinSep sep (y :: ys)) := rfl
      rw [h1, h2, ih hys]
      simp

theorem lastIsPct_joinSep (sep : String)
    (hsepL : ∀ p, lastIsPct p sep.data = false) :
    ∀ frags : List String, (∀ f ∈ frags, lastIsPct false f.data = false) →
      lastIsPct false (joinSep sep frags).data = false := by
  intro frags
  induction frags with
  | nil => intro _; rfl
  | cons x xs ih =>
    intro hf
    cases xs with
    | nil => exact hf x (by simp)
    | cons y ys =>
      have hys : ∀ f ∈ y :: ys, lastIsPct false f.data = false := by
        intro f hmem; exact hf f (by simp [hmem])
      have ihy := ih hys
      show lastIsPct false ((x ++ sep) ++ joinSep sep (y :: ys)).data = false
      rw [String.data_append, lastIsPct_append]
      cases hj : (joinSep sep (y :: ys)).data with
      | nil =>
        show lastIsPct (lastIsPct false (x ++ sep).data) [] = false
        rw [String.data_append, lastIsPct_append]
        exact hsepL _
      | cons c t =>
        rw [hj] at ihy
        rw [lastIsPct_pending _ false]
        exact ihy

theorem countPS_implicit (k : String) (h : countPS k = 0) :
    countPS (k ++ "=%s") = 1 := by
  rw [countPS, countPS_append]
  have h1 : countPSAux false k.data = 0 := h
  have h2 : ∀ p, countPSAux p "=%s".data = 1 := by intro p; cases p <;> rfl
  rw [h1, h2]

theorem lastIsPct_implicit (k : String) :
    lastIsPct false (k ++ "=%s").data = false := by
  rw [String.data_append, lastIsPct_append]
  have h2 : ∀ p, lastIsPct p "=%s".data = false := by intro p; cases p <;> rfl
  exact h2 _

theorem opLookup_mem (k sym : String) (h : opLookup k = some sym) :
    sym = ">" ∨ sym = ">=" ∨ sym = "<" ∨ sym = "<=" ∨ sym = "=" := by
  simp only [opLookup, operators, List.lookup] at h
  repeat' split at h
  all_goals simp_all

theorem lastIsPct_cons (p : Bool) (c : Char) (t : List Char) :
    lastIsPct p (c :: t) = lastIsPct (c == '%') t := rfl

theorem opfrag_spec (col sym : String) (hcol : countPS col = 0)
    (hs : ∀ p, countPSAux p ('"' :: ' ' :: (sym.data ++ [' ', '%', 's'])) = 1)
    (hl : ∀ p, lastIsPct p ('"' :: ' ' :: (sym.data ++ [' ', '%', 's'])) = false) :
    countPS ("\"" ++ col ++ "\" " ++ sym ++ " %s") = 1 ∧
      lastIsPct false ("\"" ++ col ++ "\" " ++ sym ++ " %s").data = false := by
  have hD : ("\"" ++ col ++ "\" " ++ sym ++ " %s").data =
      '"' :: (col.data ++ ('"' :: ' ' :: (sym.data ++ [' ', '%', 's']))) := by
    simp [String.data_append]
  have h1 : countPSAux false col.data = 0 := hcol
  constructor
  · rw [countPS, hD, countPSAux_cons _ _ _ (by decide),
      show (('"' : Char) == '%') = false from rfl, countPSAux_append, h1, hs]
  · rw [hD, lastIsPct_cons, show (('"' : Char) == '%') = false from rfl,
      lastIsPct_append]
    exact hl _

theorem countPS_opfrag (col sym : String) (hcol : countPS col = 0)
    (hsym : sym = ">" ∨ sym = ">=" ∨ sym = "<" ∨ sym = "<=" ∨ sym = "=") :
    countPS ("\"" ++ col ++ "\" " ++ sym ++ " %s") = 1 ∧
      lastIsPct false ("\"" ++ col ++ "\" " ++ sym ++ " %s").data = false := by
  rcases hsym with h | h | h | h | h <;> subst h <;>
    exact opfrag_spec _ _ hcol (by intro p; cases p <;> decide)
      (by intro p; cases p <;> decide)

theorem op_ok (st : QBState) (k : String) (v : JVal) (f : String) (st1 : QBState)
    (h : QueryBuilder.op st k v = .ok (f, st1)) :
    st1.current_column = st.current_column ∧ st1.params = st.params ++ [v] ∧
      ∃ col sym, st.current_column = some col ∧ opLookup k = some sym ∧
        f = "\"" ++ col ++ "\" " ++ sym ++ " %s" := by
  unfold QueryBuilder.op at h
  cases hcc : st.current_column with
  | none => rw [hcc] at h; exact absurd h (by simp)
  | some col =>
    rw [hcc] at h
    cases hop : opLookup k with
    | none => rw [hop] at h; exact absurd h (by simp)
    | some sym =>
      rw [hop] at h
      simp only [Except.ok.injEq, Prod.mk.injEq] at h
      obtain ⟨hf, hst⟩ := h
      constructor
      · rw [← hst]
      constructor
      · rw [← hst]
      · exact ⟨col, sym, rfl, rfl, hf.symm⟩

theorem build_nil (st : QBState) : QueryBuilder.build .nil st = .ok ([], st) := rfl

theorem build_cons_and_obj (nkvs rest : JFields) (st : QBState) :
    QueryBuilder.build (.cons "$and" (JVal.obj nkvs) rest) st =
      (match QueryBuilder.build nkvs st with
        | .error e => .error e
        | .ok (frags, st1) =>
          match QueryBuilder.build rest st1 with
          | .error e => .error e
          | .ok (qs, st2) => .ok (joinSep " AND " frags :: qs, st2)) := rfl

theorem build_cons_or_obj (nkvs rest : JFields) (st : QBState) :
    QueryBuilder.build (.cons "$or" (JVal.obj nkvs) rest) st =
      (match QueryBuilder.build nkvs st with
        | .error e => .error e
        | .ok (frags, st1) =>
          match QueryBuilder.build rest st1 with
          | .error e => .error e
          | .ok (qs, st2) => .ok (joinSep " OR " frags :: qs, st2)) := rfl

theorem build_cons_and_bad (v : JVal) (rest : JFields) (st : QBState)
    (hv : ∀ nkvs, v ≠ JVal.obj nkvs) :
    QueryBuilder.build (.cons "$and" v rest) st = .error .attrErr := by
  rw [QueryBuilder.build.eq_def]
  cases v <;> simp_all

theorem build_cons_or_bad (v : JVal) (rest : JFields) (st : QBState)
    (hv : ∀ nkvs, v ≠ JVal.obj nkvs) :
    QueryBuilder.build (.cons "$or" v rest) st = .error .attrErr := by
  rw [QueryBuilder.build.eq_def]
  cases v <;> simp_all

theorem opLookup_not_logical (k : String) (h : (opLookup k).isSome) :
    ¬k = "$and" ∧ ¬k = "$or" := by
  constructor <;> intro he <;> subst he <;> simp [opLookup, operators, List.lookup] at h

theorem build_cons_op (k : String) (v : JVal) (rest : JFields)
    (st : QBState) (h : (opLookup k).isSome) :
    QueryBuilder.build (.cons k v rest) st =
      (match QueryBuilder.op st k v with
        | .error e => .error e
        | .ok (f, st1) =>
          match QueryBuilder.build rest st1 with
          | .error e => .error e
          | .ok (qs, st2) => .ok (f :: qs, st2)) := by
  obtain ⟨h1, h2⟩ := opLookup_not_logical k h
  rw [QueryBuilder.build.eq_def]
  simp [h1, h2, h]

theorem build_cons_col (k : String) (nkvs rest : JFields) (st : QBState)
    (h1 : ¬k = "$and") (h2 : ¬k = "$or") (h3 : opLookup k = none) :
    QueryBuilder.build (.cons k (JVal.obj nkvs) rest) st =
      (match st.current_column with
        | some c => .error (.assertNested c)
        | none =>
          match QueryBuilder.build nkvs { st with current_column := some k } with
          | .error e => .error e
          | .ok (frags, st1) =>
            match QueryBuilder.build rest { st1 with current_column := st.current_column } with
            | .error e => .error e
            | .ok (qs, st2) => .ok (joinSep " AND " frags :: qs, st2)) := by
  rw [QueryBuilder.build.eq_def]
  simp [h1, h2, h3]

theorem build_cons_scalar (k : String) (v : JVal) (rest : JFields)
    (st : QBState) (h1 : ¬k = "$and") (h2 : ¬k = "$or") (h3 : opLookup k = none)
    (hv : ∀ nkvs, v ≠ JVal.obj nkvs) :
    QueryBuilder.build (.cons k v rest) st =
      (match QueryBuilder.build rest { st with params := st.params ++ [v] } with
        | .error e => .error e
        | .ok (qs, st2) => .ok ((k ++ "=%s") :: qs, st2)) := by
  rw [QueryBuilder.build.eq_def]
  cases v <;> simp_all

theorem build_preserves_cc (kvs : JFields) (st : QBState) :
    ∀ frags st', QueryBuilder.build kvs st = .ok (frags, st') →
      st'.current_column = st.current_column := by
  induction kvs, st using QueryBuilder.build.induct <;>
    intro frags st' hok <;>
    rw [QueryBuilder.build.eq_def] at hok <;>
    try simp_all
  case case12 k v rest st h1 h2 h3 f st1 hop qs st2 hrest ih =>
    obtain ⟨hcc, -, -⟩ := op_ok _ _ _ _ _ hop
    exact hcc

theorem cleanKvs_cons (k : String) (v : JVal) (rest : JFields)
    (h : cleanKvs (.cons k v rest) = true) :
    countPS k = 0 ∧ cleanKvs rest = true := by
  cases v <;> simp [cleanKvs] at h <;> tauto

theorem cleanKvs_cons_obj (k : String) (nkvs : JFields) (rest : JFields)
    (h : cleanKvs (.cons k (JVal.obj nkvs) rest) = true) :
    countPS k = 0 ∧ cleanKvs nkvs = true ∧ cleanKvs rest = true := by
  simp [cleanKvs] at h; tauto

theorem sepAND_count : ∀ p, countPSAux p (" AND " : String).data = 0 := by
  intro p; cases p <;> decide

theorem sepAND_last : ∀ p, lastIsPct p (" AND " : String).data = false := by
  intro p; cases p <;> decide

theorem sepOR_count : ∀ p, countPSAux p (" OR " : String).data = 0 := by
  intro p; cases p <;> decide

theorem sepOR_last : ∀ p, lastIsPct p (" OR " : String).data = false := by
  intro p; cases p <;> decide

theorem build_count_spec (kvs : JFields) (st : QBState) :
    ∀ frags st', cleanKvs kvs = true → cleanCC st.current_column = true →
      QueryBuilder.build kvs st = .ok (frags, st') →
      st'.params.length = st.params.length + (frags.map countPS).sum ∧
        ∀ f ∈ frags, lastIsPct false f.data = false := by
  induction kvs, st using QueryBuilder.build.induct
  case case4 rest st nkvs qs st2 hn qs2 st3 hr ih1 ih2 =>
    intro frags st' hclean hcc hok
    rw [build_cons_and_obj, hn] at hok
    simp [hr] at hok
    obtain ⟨hfr, hst⟩ := hok
    subst hfr; subst hst
    obtain ⟨h0, hcn, hcr⟩ := cleanKvs_cons_obj _ _ _ hclean
    obtain ⟨hlen1, hfr1⟩ := ih1 qs st2 hcn hcc hn
    have hcc2 : cleanCC st2.current_column = true := by
      rw [build_preserves_cc nkvs st qs st2 hn]; exact hcc
    obtain ⟨hlen2, hfr2⟩ := ih2 qs2 st3 hcr hcc2 hr
    have hjc := countPS_joinSep " AND " sepAND_count sepAND_last qs hfr1
    have hjl := lastIsPct_joinSep " AND " sepAND_last qs hfr1
    constructor
    · simp only [List.map_cons, List.sum_cons, hjc]
      omega
    · intro f hf
      rcases List.mem_cons.1 hf with h | h
      · subst h; exact hjl
      · exact hfr2 f h
  case case8 rest st nkvs qs st2 hn qs2 st3 hr hne ih1 ih2 =>
    intro frags st' hclean hcc hok
    rw [build_cons_or_obj, hn] at hok
    simp [hr] at hok
    obtain ⟨hfr, hst⟩ := hok
    subst hfr; subst hst
    obtain ⟨h0, hcn, hcr⟩ := cleanKvs_cons_obj _ _ _ hclean
    obtain ⟨hlen1, hfr1⟩ := ih1 qs st2 hcn hcc hn
    have hcc2 : cleanCC st2.current_column = true := by
      rw [build_preserves_cc nkvs st qs st2 hn]; exact hcc
    obtain ⟨hlen2, hfr2⟩ := ih2 qs2 st3 hcr hcc2 hr
    have hjc := countPS_joinSep " OR " sepOR_count sepOR_last qs hfr1
    have hjl := lastIsPct_joinSep " OR " sepOR_last qs hfr1
    constructor
    · simp only [List.map_cons, List.sum_cons, hjc]
      omega
    · intro f hf
      rcases List.mem_cons.1 hf with h | h
      · subst h; exact hjl
      · exact hfr2 f h
  case case12 k v rest st hand hor hop f st1 hopok qs st2 hr ih =>
    intro frags st' hclean hcc hok
    rw [build_cons_op _ _ _ _ hop, hopok] at hok
    simp [hr] at hok
    obtain ⟨hfr, hst⟩ := hok
    subst hfr; subst hst
    obtain ⟨hcc1, hpar1, col, sym, hccsome, hsym, hffrag⟩ := op_ok _ _ _ _ _ hopok
    obtain ⟨h0, hcr⟩ := cleanKvs_cons _ _ _ hclean
    have hcol0 : countPS col = 0 := by
      rw [hccsome] at hcc; simpa [cleanCC] using hcc
    obtain ⟨hfc, hfl⟩ := countPS_opfrag col sym hcol0 (opLookup_mem _ _ hsym)
    have hcc1t : cleanCC st1.current_column = true := by rw [hcc1]; exact hcc
    obtain ⟨hlen2, hfr2⟩ := ih qs st2 hcr hcc1t hr
    subst hffrag
    constructor
    · simp only [List.map_cons, List.sum_cons, hfc]
      have hl1 : st1.params.length = st.params.length + 1 := by rw [hpar1]; simp
      omega
    · intro g hg
      rcases List.mem_cons.1 hg with h | h
      · subst h; exact hfl
      · exact hfr2 g h
  case case16 k rest st hand hor hop nkvs hccnone qs st2 hn qs2 st3 hr ih1 ih2 =>
    intro frags st' hclean hcc hok
    have hopn : opLookup k = none := Option.not_isSome_iff_eq_none.1 (by simpa using hop)
    rw [hccnone] at hcc hr ih2
    rw [build_cons_col k nkvs rest st hand hor hopn, hccnone] at hok
    simp [hn, hr] at hok
    obtain ⟨hfr, hst⟩ := hok
    subst hfr; subst hst
    obtain ⟨h0, hcn, hcr⟩ := cleanKvs_cons_obj _ _ _ hclean
    have hcck : cleanCC (some k) = true := by simp [cleanCC, h0]
    obtain ⟨hlen1, hfr1⟩ := ih1 qs st2 hcn hcck hn
    obtain ⟨hlen2, hfr2⟩ := ih2 qs2 st3 hcr hcc hr
    have hjc := countPS_joinSep " AND " sepAND_count sepAND_last qs hfr1
    have hjl := lastIsPct_joinSep " AND " sepAND_last qs hfr1
    simp only [] at hlen1 hlen2
    constructor
    · simp only [List.map_cons, List.sum_cons, hjc]
      omega
    · intro f hf
      rcases List.mem_cons.1 hf with h | h
      · subst h; exact hjl
      · exact hfr2 f h
  case case18 k v rest st hand hor hop qs st2 hr hv ih =>
    intro frags st' hclean hcc hok
    have hopn : opLookup k = none := Option.not_isSome_iff_eq_none.1 (by simpa using hop)
    have hv' : ∀ nkvs, v ≠ JVal.obj nkvs := fun nkvs he => hv nkvs he
    rw [build_cons_scalar k v rest st hand hor hopn hv'] at hok
    simp [hr] at hok
    obtain ⟨hfr, hst⟩ := hok
    subst hfr; subst hst
    obtain ⟨h0, hcr⟩ := cleanKvs_cons _ _ _ hclean
    obtain ⟨hlen2, hfr2⟩ := ih qs st2 hcr hcc hr
    simp only [List.length_append, List.length_cons, List.length_nil] at hlen2
    constructor
    · simp only [List.map_cons, List.sum_cons, countPS_implicit k h0]
      omega
    · intro g hg
      rcases List.mem_cons.1 hg with h | h
      · subst h; exact lastIsPct_implicit k
      · exact hfr2 g h
  all_goals
    intro frags st' hclean hcc hok
    rw [QueryBuilder.build.eq_def] at hok
    simp_all

theorem assertFree_cons_and_obj (cc : Bool) (nkvs rest : JFields) :
    assertFree cc (.cons "$and" (JVal.obj nkvs) rest) =
      (assertFree cc nkvs && assertFree cc rest) := by
  rw [assertFree.eq_def]
  rfl

theorem assertFree_cons_or_obj (cc : Bool) (nkvs rest : JFields) :
    assertFree cc (.cons "$or" (JVal.obj nkvs) rest) =
      (assertFree cc nkvs && assertFree cc rest) := by
  rw [assertFree.eq_def]
  rfl

theorem assertFree_cons_and_bad (cc : Bool) (v : JVal) (rest : JFields)
    (hv : ∀ nkvs, v ≠ JVal.obj nkvs) :
    assertFree cc (.cons "$and" v rest) = assertFree cc rest := by
  rw [assertFree.eq_def]
  cases v <;> simp_all

theorem assertFree_cons_or_bad (cc : Bool) (v : JVal) (rest : JFields)
    (hv : ∀ nkvs, v ≠ JVal.obj nkvs) :
    assertFree cc (.cons "$or" v rest) = assertFree cc rest := by
  rw [assertFree.eq_def]
  cases v <;> simp_all

theorem assertFree_cons_op (k : String) (v : JVal) (rest : JFields)
    (cc : Bool) (h : (opLookup k).isSome) :
    assertFree cc (.cons k v rest) = (cc && assertFree cc rest) := by
  obtain ⟨h1, h2⟩ := opLookup_not_logical k h
  rw [assertFree.eq_def]
  simp [h1, h2, h]

theorem assertFree_cons_col (k : String) (nkvs rest : JFields)
    (cc : Bool) (h1 : ¬k = "$and") (h2 : ¬k = "$or") (h3 : opLookup k = none) :
    assertFree cc (.cons k (JVal.obj nkvs) rest) =
      (!cc && assertFree true nkvs && assertFree cc rest) := by
  rw [assertFree.eq_def]
  simp [h1, h2, h3]

theorem assertFree_cons_scalar (k : String) (v : JVal) (rest : JFields)
    (cc : Bool) (h1 : ¬k = "$and") (h2 : ¬k = "$or") (h3 : opLookup k = none)
    (hv : ∀ nkvs, v ≠ JVal.obj nkvs) :
    assertFree cc (.cons k v rest) = assertFree cc rest := by
  rw [assertFree.eq_def]
  cases v <;> simp_all

theorem build_assert_sound (kvs : JFields) (st : QBState) :
    ∀ e, assertFree st.current_column.isSome kvs = true →
      QueryBuilder.build kvs st = .error e → e = .attrErr := by
  induction kvs, st using QueryBuilder.build.induct
  case case2 rest st nkvs e0 hn ih =>
    intro e haf hok
    rw [build_cons_and_obj, hn] at hok
    simp at hok
    subst hok
    rw [assertFree_cons_and_obj] at haf
    simp only [Bool.and_eq_true] at haf
    exact ih e0 haf.1 hn
  case case3 rest st nkvs qs st2 hn e0 hr ih1 ih2 =>
    intro e haf hok
    rw [build_cons_and_obj, hn] at hok
    simp [hr] at hok
    subst hok
    rw [assertFree_cons_and_obj] at haf
    simp only [Bool.and_eq_true] at haf
    have hcc2 : st2.current_column = st.current_column := build_preserves_cc _ _ _ _ hn
    exact ih2 e0 (by rw [hcc2]; exact haf.2) hr
  case case5 v rest st hv =>
    intro e haf hok
    rw [build_cons_and_bad _ _ _ (fun nkvs he => hv nkvs he)] at hok
    simp at hok
    subst hok
    rfl
  case case6 rest st nkvs e0 hn hne ih =>
    intro e haf hok
    rw [build_cons_or_obj, hn] at hok
    simp at hok
    subst hok
    rw [assertFree_cons_or_obj] at haf
    simp only [Bool.and_eq_true] at haf
    exact ih e0 haf.1 hn
  case case7 rest st nkvs qs st2 hn e0 hr hne ih1 ih2 =>
    intro e haf hok
    rw [build_cons_or_obj, hn] at hok
    simp [hr] at hok
    subst hok
    rw [assertFree_cons_or_obj] at haf
    simp only [Bool.and_eq_true] at haf
    have hcc2 : st2.current_column = st.current_column := build_preserves_cc _ _ _ _ hn
    exact ih2 e0 (by rw [hcc2]; exact haf.2) hr
  case case9 v rest st hv hne =>
    intro e haf hok
    rw [build_cons_or_bad _ _ _ (fun nkvs he => hv nkvs he)] at hok
    simp at hok
    subst hok
    rfl
  case case10 k v rest st hand hor hop e0 hoperr =>
    intro e haf hok
    rw [assertFree_cons_op _ _ _ _ hop] at haf
    simp only [Bool.and_eq_true] at haf
    unfold QueryBuilder.op at hoperr
    cases hcc : st.current_column with
    | none => rw [hcc] at haf; simp at haf
    | some col =>
      rw [hcc] at hoperr
      cases hl : opLookup k with
      | none => rw [hl] at hop; simp at hop
      | some sym => rw [hl] at hoperr; simp at hoperr
  case case11 k v rest st hand hor hop f st1 hopok e0 hr ih =>
    intro e haf hok
    rw [build_cons_op _ _ _ _ hop, hopok] at hok
    simp [hr] at hok
    subst hok
    rw [assertFree_cons_op _ _ _ _ hop] at haf
    simp only [Bool.and_eq_true] at haf
    obtain ⟨hcc1, -, -⟩ := op_ok _ _ _ _ _ hopok
    exact ih e0 (by rw [hcc1]; exact haf.2) hr
  case case13 k rest st hand hor hop nkvs c hccsome =>
    intro e haf hok
    have hopn : opLookup k = none := Option.not_isSome_iff_eq_none.1 (by simpa using hop)
    rw [assertFree_cons_col k nkvs rest _ hand hor hopn] at haf
    simp [hccsome] at haf
  case case14 k rest st hand hor hop nkvs hccnone e0 hn ih =>
    intro e haf hok
    have hopn : opLookup k = none := Option.not_isSome_iff_eq_none.1 (by simpa using hop)
    rw [build_cons_col k nkvs rest st hand hor hopn, hccnone] at hok
    simp [hn] at hok
    subst hok
    rw [assertFree_cons_col k nkvs rest _ hand hor hopn] at haf
    simp only [Bool.and_eq_true] at haf
    exact ih e0 (by simpa using haf.1.2) hn
  case case15 k rest st hand hor hop nkvs hccnone qs st2 hn e0 hr ih1 ih2 =>
    intro e haf hok
    have hopn : opLookup k = none := Option.not_isSome_iff_eq_none.1 (by simpa using hop)
    rw [hccnone] at hr ih2
    rw [build_cons_col k nkvs rest st hand hor hopn, hccnone] at hok
    simp [hn, hr] at hok
    subst hok
    rw [assertFree_cons_col k nkvs rest _ hand hor hopn] at haf
    simp only [Bool.and_eq_true] at haf
    exact ih2 e0 (by simpa [hccnone] using haf.2) hr
  case case17 k v rest st hand hor hop e0 hr hv ih =>
    intro e haf hok
    have hopn : opLookup k = none := Option.not_isSome_iff_eq_none.1 (by simpa using hop)
    have hv' : ∀ nkvs, v ≠ JVal.obj nkvs := fun nkvs he => hv nkvs he
    rw [build_cons_scalar k v rest st hand hor hopn hv'] at hok
    simp [hr] at hok
    subst hok
    rw [assertFree_cons_scalar k v rest _ hand hor hopn hv'] at haf
    exact ih e0 haf hr
  all_goals
    intro e haf hok
    rw [QueryBuilder.build.eq_def] at hok
    simp_all

theorem build_op_no_column (k : String) (v : JVal) (rest : JFields)
    (st : QBState) (hop : (opLookup k).isSome) (hcc : st.current_column = none) :
    QueryBuilder.build (.cons k v rest) st = .error .assertNoColumn := by
  rw [build_cons_op _ _ _ _ hop]
  unfold QueryBuilder.op
  rw [hcc]

theorem build_nested_column (k : String) (nkvs rest : JFields)
    (st : QBState) (c : String)
    (h1 : ¬k = "$and") (h2 : ¬k = "$or") (h3 : opLookup k = none)
    (hcc : st.current_column = some c) :
    QueryBuilder.build (.cons k (JVal.obj nkvs) rest) st = .error (.assertNested c) := by
  rw [build_cons_col k nkvs rest st h1 h2 h3, hcc]

theorem length_insertByKey (x : String × JVal) (l : List (String × JVal)) :
    (insertByKey x l).length = l.length + 1 := by
  induction l with
  | nil => rfl
  | cons y ys ih => simp [insertByKey]; split <;> simp [ih]

theorem length_sortByKey (l : List (String × JVal)) :
    (sortByKey l).length = l.length := by
  induction l with
  | nil => rfl
  | cons x xs ih => simp [sortByKey, length_insertByKey, ih]

theorem length_toList : ∀ f : JFields, f.toList.length = f.length
  | .nil => rfl
  | .cons _ _ rest => by simp [JFields.toList, JFields.length, length_toList rest]

theorem addAll_params (rows : List JFields) (b : InsertBuilder) :
    (rows.foldl InsertBuilder.add b).params =
      b.params ++ (rows.map (fun row => (sortByKey row.toList).map (fun x => x.2))).join := by
  induction rows generalizing b with
  | nil => simp
  | cons r rs ih =>
    rw [List.foldl_cons, ih]
    simp [InsertBuilder.add]

theorem addAll_value_strs (rows : List JFields) (b : InsertBuilder) :
    (rows.foldl InsertBuilder.add b).value_strs =
      b.value_strs ++
        rows.map (fun row => "(" ++ joinSep "," (row.toList.map (fun _ => "%s")) ++ ")") := by
  induction rows generalizing b with
  | nil => simp
  | cons r rs ih =>
    rw [List.foldl_cons, ih]
    simp [InsertBuilder.add]

theorem addAll_first_item_keep (rows : List JFields)
    (b : InsertBuilder) (i : List (String × JVal)) (h : b.first_item = some i) :
    (rows.foldl InsertBuilder.add b).first_item = some i := by
  induction rows generalizing b with
  | nil => simpa using h
  | cons x xs ih =>
    rw [List.foldl_cons]
    exact ih _ (by simp [InsertBuilder.add, h])

theorem addAll_first_item (r : JFields) (rs : List JFields)
    (b : InsertBuilder) (hb : b.first_item = none) :
    ((r :: rs).foldl InsertBuilder.add b).first_item = some (sortByKey r.toList) := by
  rw [List.foldl_cons]
  exact addAll_first_item_keep rs _ _ (by simp [InsertBuilder.add, hb])

/-- C1 counterexample: the claim says compiling the filter whose key
$and maps to the ordered sequence of the two filters (a equal 1) and
(b equal 2) succeeds.  On the code it does not: build calls .items()
on the associated value, and a sequence has no .items method, so the
compilation raises an AttributeError instead of returning SQL. -/
theorem c1_counterexample :
    QueryBuilder.build_query
        (some (.obj (.cons "$and"
          (.arr (.cons (.obj (.cons "a" (.int 1) .nil))
            (.cons (.obj (.cons "b" (.int 2) .nil)) .nil))) .nil))) =
      .error .attrErr := rfl

/-- C1 (amended): the value of a $and or $or key must itself be an
object; compiling the filter with $and mapping to the object with
fields (a, 1) and (b, 2) succeeds and yields the fragment
a=%s AND b=%s with params 1, 2 in that order, and in general, for an
object-valued $and or $or field, the fields of that object are
recursively compiled and the resulting fragments are joined with
AND or OR respectively. -/
theorem c1_theorem :
    (QueryBuilder.build_query
        (some (.obj (.cons "$and"
          (.obj (.cons "a" (.int 1) (.cons "b" (.int 2) .nil))) .nil))) =
      .ok { query := "a=%s AND b=%s", params := [.int 1, .int 2] }) ∧
    (∀ (kvs : JFields) (st : QBState) (frags : List String) (st2 : QBState),
      QueryBuilder.build kvs st = .ok (frags, st2) →
      QueryBuilder.build (.cons "$and" (JVal.obj kvs) .nil) st =
        .ok ([joinSep " AND " frags], st2) ∧
      QueryBuilder.build (.cons "$or" (JVal.obj kvs) .nil) st =
        .ok ([joinSep " OR " frags], st2)) := by
  constructor
  · rfl
  · intro kvs st frags st2 h
    constructor
    · rw [build_cons_and_obj, h]
      simp [build_nil]
    · rw [build_cons_or_obj, h]
      simp [build_nil]

/-- C1 witness: the amended general statement applied to the concrete
one-field object filter (a equal 1). -/
theorem c1_witness :
    QueryBuilder.build (.cons "$and" (JVal.obj (.cons "a" (JVal.int 1) .nil)) .nil)
        { params := [], current_column := none } =
      .ok ([joinSep " AND " ["a=%s"]], { params := [JVal.int 1], current_column := none }) :=
  (c1_theorem.2 (.cons "a" (JVal.int 1) .nil) { params := [], current_column := none }
    ["a=%s"] { params := [JVal.int 1], current_column := none } rfl).1

/-- C2 counterexample: the claim quantifies over every filter on which
compilation returns normally, but a column key containing the literal
placeholder marker breaks the alignment: the filter (a%s equal 1)
compiles normally to the SQL text a%s=%s, which contains two
placeholder markers while the parameter list has one element. -/
theorem c2_counterexample :
    QueryBuilder.build_query (some (.obj (.cons "a%s" (.int 1) .nil))) =
      .ok { query := "a%s=%s", params := [.int 1] } ∧
    countPS "a%s=%s" = 2 ∧ ([JVal.int 1] : List JVal).length = 1 :=
  ⟨rfl, by decide, rfl⟩

/-- C2 (amended): for every filter value whose object keys contain no
percent-s placeholder marker anywhere, if build_query returns
normally then the number of placeholders in the emitted SQL text
equals the length of the parameter list. -/
theorem c2_theorem (w : JVal) (r : QueryResult) (hclean : cleanV w = true)
    (hok : QueryBuilder.build_query (some w) = .ok r) :
    countPS r.query = r.params.length := by
  unfold QueryBuilder.build_query at hok
  cases w with
  | obj kvs =>
    cases kvs with
    | nil =>
      simp [pyLen, JFields.length] at hok
      rw [← hok]
      rfl
    | cons k0 v0 t =>
      simp only [pyLen, JFields.length] at hok
      simp only [QueryBuilder.group] at hok
      cases hb : QueryBuilder.build (.cons k0 v0 t) { params := [], current_column := none } with
      | error e => rw [hb] at hok; simp at hok
      | ok p =>
        obtain ⟨frags, st1⟩ := p
        rw [hb] at hok
        simp at hok
        have hcl : cleanKvs (.cons k0 v0 t) = true := hclean
        obtain ⟨hlen, hfr⟩ :=
          build_count_spec (.cons k0 v0 t) { params := [], current_column := none }
            frags st1 hcl rfl hb
        rw [← hok]
        show countPS (joinSep " AND " frags) = st1.params.length
        simp at hlen
        rw [countPS_joinSep " AND " sepAND_count sepAND_last frags hfr, hlen]
  | str s =>
    cases hs : s.length with
    | zero =>
      simp only [pyLen] at hok; rw [hs] at hok; simp at hok; rw [← hok]; rfl
    | succ n =>
      simp only [pyLen] at hok
      rw [hs] at hok
      simp [QueryBuilder.group] at hok
  | arr xs =>
    cases xs with
    | nil => simp [pyLen, JItems.length] at hok; rw [← hok]; rfl
    | cons x t => simp [pyLen, JItems.length, QueryBuilder.group] at hok
  | int n => simp [pyLen] at hok
  | bool b => simp [pyLen] at hok
  | null => simp [pyLen] at hok

/-- C2 witness: the amended alignment theorem applied to the filter
(a equal 1), whose compiled text a=%s holds one placeholder for its
one parameter. -/
theorem c2_witness : countPS "a=%s" = ([JVal.int 1] : List JVal).length :=
  c2_theorem (.obj (.cons "a" (.int 1) .nil)) { query := "a=%s", params := [.int 1] }
    (by simp [cleanV, cleanKvs]; decide) rfl

/-- C3 counterexample: the claim says the validator rejects the
identifier 1abc, but the code only requires the first character to be
alphanumeric, and the digit 1 is alphanumeric, so the validator
accepts it. -/
theorem c3_counterexample : check_valid_sql_ident (JVal.str "1abc") = true := by
  decide

/-- C3 (amended): the validator accepts valid_name$1, rejects the
string bad name (space is not allowed) and the empty string, and
accepts 1abc, because a leading digit passes the alphanumeric
first-character test. -/
theorem c3_theorem :
    check_valid_sql_ident (JVal.str "valid_name$1") = true ∧
    check_valid_sql_ident (JVal.str "bad name") = false ∧
    check_valid_sql_ident (JVal.str "") = false ∧
    check_valid_sql_ident (JVal.str "1abc") = true := by
  refine ⟨by decide, by decide, rfl, by decide⟩

/-- C4: evaluation at the failing input: the one-character string
holding the letter e with acute accent (code point 233).  The code
comment says diacritical marks are rejected, and the claim restates
that, but Python str.isalnum consults the Unicode database and
classifies the character as alphanumeric, so the validator accepts
the identifier. -/
theorem c4_theorem : check_valid_sql_ident (JVal.str "é") = true := by
  decide

/-- C9: the validator is total and signals every failure class by
returning false rather than raising: every non-string input yields
false, the empty string yields false, a string whose first character
is not alphanumeric yields false, and a string containing a character
that is neither alphanumeric nor underscore nor dollar yields false.
Totality is immediate from the definition, a total boolean function. -/
theorem c9_theorem :
    (∀ v : JVal, (∀ s, v ≠ JVal.str s) → check_valid_sql_ident v = false) ∧
    check_valid_sql_ident (JVal.str "") = false ∧
    (∀ (s : String) (c : Char) (t : List Char), s.data = c :: t →
      pyCharIsAlnum c = false → check_valid_sql_ident (JVal.str s) = false) ∧
    (∀ (s : String) (c : Char), c ∈ s.data → pyCharIsAlnum c = false →
      ¬c = '_' → ¬c = '$' → check_valid_sql_ident (JVal.str s) = false) := by
  refine ⟨?_, rfl, ?_, ?_⟩
  · intro v hv
    cases v with
    | str s => exact absurd rfl (hv s)
    | int n => rfl
    | bool b => rfl
    | null => rfl
    | obj kvs => rfl
    | arr xs => rfl
  · intro s c t hdata hc
    simp [check_valid_sql_ident, hdata, hc]
  · intro s c hmem hal hu hd
    have hallf : s.data.all
        (fun ch => pyCharIsAlnum ch || ch == '_' || ch == '$') = false := by
      cases hq : s.data.all (fun ch => pyCharIsAlnum ch || ch == '_' || ch == '$') with
      | false => rfl
      | true =>
        have := List.all_eq_true.1 hq c hmem
        simp [hal, hu, hd] at this
    cases hdata : s.data with
    | nil => simp [check_valid_sql_ident, hdata]
    | cons c0 t0 =>
      rw [hdata] at hallf
      simp [check_valid_sql_ident, hdata, hallf]

/-- C9 witness: the totality clauses applied to the integer 3 (not a
string) and to the string a b, which holds a space. -/
theorem c9_witness :
    check_valid_sql_ident (JVal.int 3) = false ∧
    check_valid_sql_ident (JVal.str "a b") = false :=
  ⟨c9_theorem.1 (JVal.int 3) (fun s h => JVal.noConfusion h),
   c9_theorem.2.2.2 "a b" ' ' (by decide) (by decide) (by decide) (by decide)⟩

/-- C5: filter compilation raises an assertion fault in exactly two
situations.  First conjunct: the nested-column example fails with an
assertion rather than producing SQL.  Second: a comparison-operator
key reached with no active column context always fails the assert in
op.  Third: an object-valued ordinary key reached while a column
context is active always fails the nesting assert in build.  Fourth
(exactly these two): on any filter free of the two situations, every
compilation failure is the AttributeError of a non-object logical
value, never an assertion fault. -/
theorem c5_theorem :
    (QueryBuilder.build_query
        (some (.obj (.cons "a"
          (.obj (.cons "b" (.obj (.cons "c" (.int 1) .nil)) .nil)) .nil))) =
      .error (.assertNested "a")) ∧
    (∀ (k : String) (v : JVal) (rest : JFields) (st : QBState),
      (opLookup k).isSome → st.current_column = none →
      QueryBuilder.build (.cons k v rest) st = .error .assertNoColumn) ∧
    (∀ (k : String) (nkvs rest : JFields) (st : QBState) (c : String),
      ¬k = "$and" → ¬k = "$or" → opLookup k = none → st.current_column = some c →
      QueryBuilder.build (.cons k (JVal.obj nkvs) rest) st = .error (.assertNested c)) ∧
    (∀ (kvs : JFields) (st : QBState) (e : QErr),
      assertFree st.current_column.isSome kvs = true →
      QueryBuilder.build kvs st = .error e → e = .attrErr) := by
  refine ⟨rfl, build_op_no_column, build_nested_column, ?_⟩
  intro kvs st e haf hok
  exact build_assert_sound kvs st e haf hok

/-- C5 witness: the two assertion triggers at concrete inputs: the
operator key $gt with no active column, and the ordinary key a with
object value while column x is active. -/
theorem c5_witness :
    QueryBuilder.build (.cons "$gt" (JVal.int 1) .nil)
        { params := [], current_column := none } = .error .assertNoColumn ∧
    QueryBuilder.build (.cons "a" (JVal.obj (.cons "b" (JVal.int 1) .nil)) .nil)
        { params := [], current_column := some "x" } = .error (.assertNested "x") :=
  ⟨c5_theorem.2.1 "$gt" (JVal.int 1) .nil { params := [], current_column := none }
      (by decide) rfl,
   c5_theorem.2.2.1 "a" (.cons "b" (JVal.int 1) .nil) .nil
      { params := [], current_column := some "x" } "x"
      (by decide) (by decide) (by decide) rfl⟩

/-- C6: compiling the filter (age greater-equal 18 and age less-than
65, written as the age key mapping to an object with the $gte and $lt
operator fields) yields the parameter list 18, 65 in that order and
the clause with the double-quoted column name and the SQL comparison
symbols. -/
theorem c6_theorem :
    QueryBuilder.build_query
        (some (.obj (.cons "age"
          (.obj (.cons "$gte" (.int 18) (.cons "$lt" (.int 65) .nil))) .nil))) =
      .ok { query := "\"age\" >= %s AND \"age\" < %s", params := [.int 18, .int 65] } := rfl

/-- C7: an empty or absent filter compiles to the empty SQL text with
the empty parameter list, and the delete, select and update templates
then insert no WHERE text at all: the where_str component stays the
empty string in the assembled statement. -/
theorem c7_theorem :
    QueryBuilder.build_query none = .ok { query := "", params := [] } ∧
    QueryBuilder.build_query (some (.obj .nil)) = .ok { query := "", params := [] } ∧
    (∀ table : String, deleteSql table none =
      .ok ("DELETE FROM " ++ table ++ " " ++ "" ++ " RETURNING *", [])) ∧
    (∀ table : String, deleteSql table (some (.obj .nil)) =
      .ok ("DELETE FROM " ++ table ++ " " ++ "" ++ " RETURNING *", [])) ∧
    (∀ columns table : String, selectSql columns table none =
      .ok ("SELECT " ++ columns ++ " FROM " ++ table, [])) ∧
    (∀ columns table : String, selectSql columns table (some (.obj .nil)) =
      .ok ("SELECT " ++ columns ++ " FROM " ++ table, [])) ∧
    (∀ (table : String) (values : JFields), updateSql table values none =
      .ok ("UPDATE " ++ table ++ " SET " ++ updateSetStr values ++ " " ++ "" ++
        "RETURNING *", updateSetParams values ++ [])) ∧
    (∀ (table : String) (values : JFields), updateSql table values (some (.obj .nil)) =
      .ok ("UPDATE " ++ table ++ " SET " ++ updateSetStr values ++ " " ++ "" ++
        "RETURNING *", updateSetParams values ++ [])) :=
  ⟨rfl, rfl, fun _ => rfl, fun _ => rfl, fun _ _ => rfl, fun _ _ => rfl,
   fun _ _ => rfl, fun _ _ => rfl⟩

/-- C10: on every filter input on which build returns normally, the
current_column slot after the call equals its value before the call:
every column scope restores the previous column context. -/
theorem c10_theorem (w : JFields) (st : QBState) (frags : List String)
    (st' : QBState) (h : QueryBuilder.build w st = .ok (frags, st')) :
    st'.current_column = st.current_column :=
  build_preserves_cc w st frags st' h

/-- C10 witness: the frame property at the filter with the column a
scoping a comparison, starting from an empty builder state. -/
theorem c10_witness :
    (QBState.mk [JVal.int 1] none).current_column =
      (QBState.mk [] none).current_column :=
  c10_theorem (.cons "a" (JVal.obj (.cons "$gt" (JVal.int 1) .nil)) .nil)
    (QBState.mk [] none) ["\"a\" > %s"] (QBState.mk [JVal.int 1] none) rfl

/-- C8: for a non-empty sequence of insert rows, the column list comes
from the first row only (its sorted, double-quoted keys, comma
joined), each row contributes one parenthesized placeholder tuple
sized to its own key count, the flattened parameter list concatenates
the rows sorted values, and its length is the sum of the rows key
counts; at the concrete two-row example this gives the columns a and
b, the values clause (%s,%s),(%s,%s) and the params 1, 2, 3, 4. -/
theorem c8_theorem (r : JFields) (rs : List JFields) :
    (InsertBuilder.addAll (r :: rs)).names =
      some (joinSep "," ((sortByKey r.toList).map (fun x => "\"" ++ x.1 ++ "\""))) ∧
    (InsertBuilder.addAll (r :: rs)).values =
      joinSep ","
        ((r :: rs).map (fun row => "(" ++ joinSep "," (row.toList.map (fun _ => "%s")) ++ ")")) ∧
    (InsertBuilder.addAll (r :: rs)).params =
      ((r :: rs).map (fun row => (sortByKey row.toList).map (fun x => x.2))).join ∧
    (InsertBuilder.addAll (r :: rs)).params.length =
      ((r :: rs).map (fun row => row.length)).sum ∧
    (InsertBuilder.addAll [.cons "a" (JVal.int 1) (.cons "b" (JVal.int 2) .nil),
        .cons "a" (JVal.int 3) (.cons "b" (JVal.int 4) .nil)]).names =
      some "\"a\",\"b\"" ∧
    (InsertBuilder.addAll [.cons "a" (JVal.int 1) (.cons "b" (JVal.int 2) .nil),
        .cons "a" (JVal.int 3) (.cons "b" (JVal.int 4) .nil)]).values =
      "(%s,%s),(%s,%s)" ∧
    (InsertBuilder.addAll [.cons "a" (JVal.int 1) (.cons "b" (JVal.int 2) .nil),
        .cons "a" (JVal.int 3) (.cons "b" (JVal.int 4) .nil)]).params =
      [JVal.int 1, JVal.int 2, JVal.int 3, JVal.int 4] := by
  have hab : (['a'] : List Char) ≤ ['b'] := by decide
  refine ⟨?_, ?_, ?_, ?_, ?_, ?_, ?_⟩
  · unfold InsertBuilder.names InsertBuilder.addAll
    rw [addAll_first_item r rs _ rfl]
    rfl
  · unfold InsertBuilder.values InsertBuilder.addAll
    rw [addAll_value_strs]
    simp [InsertBuilder.new]
  · unfold InsertBuilder.addAll
    rw [addAll_params]
    simp [InsertBuilder.new]
  · unfold InsertBuilder.addAll
    rw [addAll_params]
    simp [InsertBuilder.new, length_sortByKey, length_toList, Function.comp_def]
  · simp [InsertBuilder.addAll, InsertBuilder.add, InsertBuilder.new, InsertBuilder.names,
      JFields.toList, sortByKey, insertByKey, joinSep, hab]
  · simp [InsertBuilder.addAll, InsertBuilder.add, InsertBuilder.new, InsertBuilder.values,
      JFields.toList, sortByKey, insertByKey, joinSep, hab]
  · simp [InsertBuilder.addAll, InsertBuilder.add, InsertBuilder.new,
      JFields.toList, sortByKey, insertByKey, joinSep, hab]
